import Mathlib

/-!
Verification of `LibCarla/source/carla/sensor/s11n/LidarData.h`.

The C++ classes `LidarDetection` and `LidarData` are embedded shallowly:

* Every 32-bit scalar (the `uint32_t` header words and the `float` point
  fields) is modelled by its 32-bit pattern, represented as a `Nat`.  The
  code never performs arithmetic on the float values — it only copies
  their bits (`memcpy`, `reinterpret_cast`, `emplace_back`) — so the bit
  pattern is a faithful value representation, covering NaN and infinity
  patterns as well.
* `std::vector` becomes `List`; `reserve` calls affect only capacity and
  are dropped; `resize`, `clear` and `memset` are modelled explicitly.
* An out-of-bounds `operator[]` access on a vector is undefined behaviour
  in C++; the operations that can perform one (`WritePointAsync`,
  `SaveDetections`) therefore return `Option`, with `none` marking the
  out-of-bounds access.
-/

namespace Carla

/-- `LidarDetection`: a point (x, y, z) plus an intensity.  Each field holds
the 32-bit pattern of the corresponding C++ `float`. -/
structure LidarDetection where
  x : Nat
  y : Nat
  z : Nat
  intensity : Nat
deriving DecidableEq, Repr

/-- A token written to a `std::ostream`: either a formatted value (one
`operator<<` on a float) or a single character literal. -/
inductive OutTok where
  | val (bits : Nat)
  | ch (c : Char)
deriving DecidableEq, Repr

/-- `LidarDetection::WriteDetection`: the exact sequence of stream
insertions `out << x << ' ' << y << ' ' << z << ' ' << intensity`. -/
def LidarDetection.WriteDetection (d : LidarDetection) : List OutTok :=
  [.val d.x, .ch ' ', .val d.y, .ch ' ', .val d.z, .ch ' ', .val d.intensity]

/-- The four scalar fields of a detection in the order they are pushed to
the flat buffer by `SaveDetections`: x, y, z, intensity. -/
def detFields (d : LidarDetection) : List Nat :=
  [d.x, d.y, d.z, d.intensity]

/-- `LidarData`: `_header` (uint32 words), `_aux_points` (per-channel
staging buffers), `_max_channel_points`, `_points` (flat float buffer,
stored as bit patterns). -/
structure LidarData where
  header : List Nat
  aux_points : List (List LidarDetection)
  max_channel_points : Nat
  points : List Nat
deriving DecidableEq, Repr

namespace LidarData

/-- `Index::HorizontalAngle = 0`. -/
def idxHorizontalAngle : Nat := 0

/-- `Index::ChannelCount = 1`. -/
def idxChannelCount : Nat := 1

/-- `Index::SIZE = 2`. -/
def idxSIZE : Nat := 2

/-- The constructor `LidarData(uint32_t ChannelCount)`: a header of
`Index::SIZE + ChannelCount` zero words with the channel count stored at
word 1.  The member `_max_channel_points` is left uninitialized by the
C++ constructor, so its junk value is a parameter; `_aux_points` and
`_points` are default-constructed empty vectors. -/
def init (channelCount : Nat) (uninitMax : Nat) : LidarData :=
  { header := (List.replicate (idxSIZE + channelCount) 0).set idxChannelCount channelCount
    aux_points := []
    max_channel_points := uninitMax
    points := [] }

/-- `GetHorizontalAngle`: reinterpret header word 0 as a float — in the
bit-pattern model, the word itself. -/
def GetHorizontalAngle (d : LidarData) : Nat :=
  d.header.getD idxHorizontalAngle 0

/-- `SetHorizontalAngle`: `memcpy` the float's bits into header word 0. -/
def SetHorizontalAngle (d : LidarData) (angle : Nat) : LidarData :=
  { d with header := d.header.set idxHorizontalAngle angle }

/-- `GetChannelCount`: header word 1. -/
def GetChannelCount (d : LidarData) : Nat :=
  d.header.getD idxChannelCount 0

/-- `memset(_header.data() + start, 0, sizeof(uint32_t) * count)`: zero
`count` consecutive words starting at index `start`. -/
def memsetZero (l : List Nat) (start count : Nat) : List Nat :=
  match count with
  | 0 => l
  | k + 1 => memsetZero (l.set start 0) (start + 1) k

/-- `std::vector::resize(n)`: keep the first `n` elements, default-construct
(empty) the rest. -/
def resizeAux (l : List (List LidarDetection)) (n : Nat) :
    List (List LidarDetection) :=
  l.take n ++ List.replicate (n - l.length) []

/-- `Reset(channel_point_count)`: zero the per-channel count words, record
the hint, resize the staging array to the channel count and clear every
staging buffer (the `reserve` call affects only capacity). -/
def Reset (d : LidarData) (channel_point_count : Nat) : LidarData :=
  { d with
    header := memsetZero d.header idxSIZE d.GetChannelCount
    max_channel_points := channel_point_count
    aux_points := (resizeAux d.aux_points d.GetChannelCount).map (fun _ => []) }

/-- `WritePointAsync(channel, detection)`:
`_aux_points[channel].emplace_back(detection)`.  The vector index is
undefined behaviour when `channel ≥ _aux_points.size()`, modelled by
`none` (the `DEBUG_ASSERT` checks `channel < GetChannelCount()`, which
does not bound the staging array's actual size). -/
def WritePointAsync (d : LidarData) (channel : Nat)
    (detection : LidarDetection) : Option LidarData :=
  match d.aux_points[channel]? with
  | none => none
  | some buf =>
      some { d with aux_points := d.aux_points.set channel (buf ++ [detection]) }

/-- The loop of `SaveDetections`: for each remaining channel index, store
`_aux_points.size()` into header word `Index::SIZE + idxChannel` (this is
what line 118 of the source does — the size of the outer vector, not of
the channel's buffer), then append the channel's staged detections' four
fields to the flat buffer.  `_aux_points[idxChannel]` is undefined
behaviour when out of bounds, modelled by `none`. -/
def saveLoop (aux : List (List LidarDetection)) (i fuel : Nat)
    (header : List Nat) (pts : List Nat) : Option (List Nat × List Nat) :=
  match fuel with
  | 0 => some (header, pts)
  | k + 1 =>
      match aux[i]? with
      | none => none
      | some buf =>
          saveLoop aux (i + 1) k (header.set (idxSIZE + i) aux.length)
            (pts ++ buf.flatMap detFields)

/-- `SaveDetections`: clear the flat buffer (the `reserve` affects only
capacity) and run the per-channel loop for `GetChannelCount()` channels. -/
def SaveDetections (d : LidarData) : Option LidarData :=
  match saveLoop d.aux_points 0 d.GetChannelCount d.header [] with
  | none => none
  | some (h, p) => some { d with header := h, points := p }

end LidarData

/-- A client-visible operation on a `LidarData` accumulator. -/
inductive LidarOp where
  | setAngle (bits : Nat)
  | reset (hint : Nat)
  | append (channel : Nat) (detection : LidarDetection)
  | save
deriving DecidableEq, Repr

/-- Apply one operation; `none` when the operation hits undefined
behaviour. -/
def applyOp (d : LidarData) : LidarOp → Option LidarData
  | .setAngle b => some (d.SetHorizontalAngle b)
  | .reset h => some (d.Reset h)
  | .append c det => d.WritePointAsync c det
  | .save => d.SaveDetections

/-- Apply a sequence of operations left to right. -/
def applyOps (d : LidarData) : List LidarOp → Option LidarData
  | [] => some d
  | op :: rest => (applyOp d op).bind (fun d1 => applyOps d1 rest)

/-- Apply a sequence of `WritePointAsync` calls, given as
(channel, detection) pairs, left to right. -/
def applyAppends (d : LidarData) :
    List (Nat × LidarDetection) → Option LidarData
  | [] => some d
  | (c, det) :: rest =>
      (d.WritePointAsync c det).bind (fun d1 => applyAppends d1 rest)

/-- Sum of the per-channel count words recorded in the header:
`Σ_{i < GetChannelCount} header[2+i]`. -/
def headerCountSum (d : LidarData) : Nat :=
  ((List.range d.GetChannelCount).map (fun i => d.header.getD (2 + i) 0)).sum

/-- Number of appends made to channel `i` in an append sequence. -/
def countCh (ops : List (Nat × LidarDetection)) (i : Nat) : Nat :=
  (ops.filter (fun p => p.1 = i)).length

/-- Total number of appends made to channels `0 .. i-1`. -/
def countBelow (ops : List (Nat × LidarDetection)) (i : Nat) : Nat :=
  ((List.range i).map (countCh ops)).sum

namespace LidarData

/-! ### Basic lemmas about `memsetZero` -/

theorem memsetZero_length (l : List Nat) (s n : Nat) :
    (memsetZero l s n).length = l.length := by
  induction n generalizing l s with
  | zero => rfl
  | succ k ih => simp [memsetZero, ih]

theorem memsetZero_getElem?_lt (l : List Nat) (s n j : Nat) (hj : j < s) :
    (memsetZero l s n)[j]? = l[j]? := by
  induction n generalizing l s with
  | zero => rfl
  | succ k ih =>
    have h1 := ih (l.set s 0) (s + 1) (by omega)
    simp only [memsetZero, h1]
    exact List.getElem?_set_ne (by omega)

theorem memsetZero_getD_zero (l : List Nat) (s n j : Nat)
    (h1 : s ≤ j) (h2 : j < s + n) :
    (memsetZero l s n).getD j 0 = 0 := by
  induction n generalizing l s with
  | zero => omega
  | succ k ih =>
    by_cases hj : j = s
    · subst hj
      rw [memsetZero, List.getD_eq_getElem?_getD,
        memsetZero_getElem?_lt _ _ _ _ (by omega), List.getElem?_set]
      rcases Nat.lt_or_ge j l.length with hlen | hlen
      · simp [hlen]
      · simp [Nat.not_lt.mpr hlen]
    · exact ih (l.set s 0) (s + 1) (by omega) (by omega)

/-! ### Closed form of the `SaveDetections` loop -/

/-- Header words `2+i .. 2+i+fuel-1` all set to `v` (in ascending order),
as the `SaveDetections` loop does with `v = _aux_points.size()`. -/
def setCounts (v i fuel : Nat) (h : List Nat) : List Nat :=
  match fuel with
  | 0 => h
  | k + 1 => setCounts v (i + 1) k (h.set (2 + i) v)

/-- The flat-buffer contents produced by the `SaveDetections` loop for
channels `i .. i+fuel-1`. -/
def channelsFlat (aux : List (List LidarDetection)) (i fuel : Nat) :
    List Nat :=
  match fuel with
  | 0 => []
  | k + 1 => (aux.getD i []).flatMap detFields ++ channelsFlat aux (i + 1) k

theorem setCounts_length (v i fuel : Nat) (h : List Nat) :
    (setCounts v i fuel h).length = h.length := by
  induction fuel generalizing i h with
  | zero => rfl
  | succ k ih => simp [setCounts, ih]

theorem setCounts_getElem?_lt (v i fuel j : Nat) (h : List Nat)
    (hj : j < 2 + i) :
    (setCounts v i fuel h)[j]? = h[j]? := by
  induction fuel generalizing i h with
  | zero => rfl
  | succ k ih =>
    have h1 := ih (i + 1) (h.set (2 + i) v) (by omega)
    simp only [setCounts, h1]
    exact List.getElem?_set_ne (by omega)

theorem setCounts_set_lt (v i fuel j w : Nat) (h : List Nat)
    (hj : j < 2 + i) :
    setCounts v i fuel (h.set j w) = (setCounts v i fuel h).set j w := by
  induction fuel generalizing i h with
  | zero => rfl
  | succ k ih =>
    simp only [setCounts]
    rw [List.set_comm _ _ _ (by omega), ih (i + 1) _ (by omega)]

theorem setCounts_idem (v i fuel : Nat) (h : List Nat) :
    setCounts v i fuel (setCounts v i fuel h) = setCounts v i fuel h := by
  induction fuel generalizing i h with
  | zero => rfl
  | succ k ih =>
    simp only [setCounts]
    rw [setCounts_set_lt _ _ _ _ _ _ (by omega), ih,
      ← setCounts_set_lt _ _ _ _ _ _ (by omega), List.set_set]

theorem saveLoop_eq (aux : List (List LidarDetection)) (i fuel : Nat)
    (h : List Nat) (p : List Nat)
    (hb : ∀ k, k < fuel → i + k < aux.length) :
    saveLoop aux i fuel h p =
      some (setCounts aux.length i fuel h, p ++ channelsFlat aux i fuel) := by
  induction fuel generalizing i h p with
  | zero => simp [saveLoop, setCounts, channelsFlat]
  | succ k ih =>
    have hi : i < aux.length := by have := hb 0 (by omega); omega
    have hsome : aux[i]? = some aux[i] := List.getElem?_eq_getElem hi
    simp only [saveLoop, hsome]
    rw [ih (i + 1) _ _ (by intro k hk; have := hb (k + 1) (by omega); omega)]
    simp [setCounts, channelsFlat, idxSIZE, List.getD_eq_getElem?_getD, hsome]

theorem saveLoop_some_bound (aux : List (List LidarDetection))
    (i fuel : Nat) (h p : List Nat) (r : List Nat × List Nat)
    (hr : saveLoop aux i fuel h p = some r) :
    ∀ k, k < fuel → i + k < aux.length := by
  induction fuel generalizing i h p with
  | zero => omega
  | succ n ih =>
    intro k hk
    rw [saveLoop] at hr
    cases hsome : aux[i]? with
    | none => rw [hsome] at hr; exact absurd hr (by simp)
    | some buf =>
      rw [hsome] at hr
      have hi : i < aux.length := by
        by_contra hcon
        rw [List.getElem?_eq_none (by omega)] at hsome
        exact Option.noConfusion hsome
      rcases Nat.eq_zero_or_pos k with rfl | hpos
      · omega
      · have := ih (i + 1) _ _ hr (k - 1) (by omega)
        omega

/-! ### `SaveDetections` at the state level -/

theorem SaveDetections_eq (d : LidarData)
    (hb : d.GetChannelCount ≤ d.aux_points.length) :
    d.SaveDetections = some
      { d with
        header := setCounts d.aux_points.length 0 d.GetChannelCount d.header
        points := channelsFlat d.aux_points 0 d.GetChannelCount } := by
  rw [SaveDetections, saveLoop_eq _ _ _ _ _ (by intro k hk; omega)]
  simp

theorem SaveDetections_some_bound (d d1 : LidarData)
    (hs : d.SaveDetections = some d1) :
    d.GetChannelCount ≤ d.aux_points.length := by
  rw [SaveDetections] at hs
  cases hr : saveLoop d.aux_points 0 d.GetChannelCount d.header [] with
  | none => rw [hr] at hs; exact absurd hs (by simp)
  | some r =>
    rcases Nat.eq_zero_or_pos d.GetChannelCount with h0 | h0
    · omega
    · have := saveLoop_some_bound _ _ _ _ _ _ hr (d.GetChannelCount - 1)
        (by omega)
      omega

/-! ### `Reset` lemmas -/

theorem Reset_header_indep (d : LidarData) (h1 h2 : Nat) :
    (d.Reset h1).header = (d.Reset h2).header ∧
      (d.Reset h1).aux_points = (d.Reset h2).aux_points :=
  ⟨rfl, rfl⟩

theorem Reset_GetChannelCount (d : LidarData) (hint : Nat) :
    (d.Reset hint).GetChannelCount = d.GetChannelCount := by
  simp only [Reset, GetChannelCount, List.getD_eq_getElem?_getD]
  rw [memsetZero_getElem?_lt]
  simp [idxChannelCount, idxSIZE]

theorem Reset_counts_zero (d : LidarData) (hint i : Nat)
    (hi : i < d.GetChannelCount) :
    (d.Reset hint).header.getD (2 + i) 0 = 0 := by
  simp only [Reset, idxSIZE]
  exact memsetZero_getD_zero _ _ _ _ (by omega) (by omega)

theorem Reset_aux_length (d : LidarData) (hint : Nat) :
    (d.Reset hint).aux_points.length = d.GetChannelCount := by
  simp only [Reset, resizeAux, List.length_map, List.length_append,
    List.length_take, List.length_replicate]
  omega

theorem Reset_aux_mem (d : LidarData) (hint : Nat) :
    ∀ buf ∈ (d.Reset hint).aux_points, buf = [] := by
  intro buf hbuf
  simp only [Reset, List.mem_map] at hbuf
  obtain ⟨_, _, h⟩ := hbuf
  exact h.symm

theorem Reset_aux_getD (d : LidarData) (hint i : Nat) :
    (d.Reset hint).aux_points.getD i [] = [] := by
  rcases Nat.lt_or_ge i (d.Reset hint).aux_points.length with hi | hi
  · rw [List.getD_eq_getElem?_getD, List.getElem?_eq_getElem hi]
    exact Reset_aux_mem d hint _ (List.getElem_mem hi)
  · rw [List.getD_eq_getElem?_getD, List.getElem?_eq_none hi]
    rfl

/-! ### Constructor lemmas -/

theorem init_header_length (n j : Nat) : (init n j).header.length = 2 + n := by
  simp [init, idxSIZE]

theorem init_GetChannelCount (n j : Nat) : (init n j).GetChannelCount = n := by
  simp only [init, GetChannelCount, idxChannelCount, List.getD_eq_getElem?_getD]
  rw [List.getElem?_set_self (by simp [idxSIZE]; omega)]
  rfl

theorem init_angle_zero (n j : Nat) : (init n j).header.getD 0 0 = 0 := by
  simp only [init, idxChannelCount, List.getD_eq_getElem?_getD]
  rw [List.getElem?_set_ne (by omega)]
  simp [List.getElem?_replicate, idxSIZE]

theorem init_counts_zero (n j i : Nat) :
    (init n j).header.getD (2 + i) 0 = 0 := by
  simp only [init, idxChannelCount, List.getD_eq_getElem?_getD]
  rw [List.getElem?_set_ne (by omega)]
  rcases Nat.lt_or_ge (2 + i) (2 + n) with hi | hi
  · rw [List.getElem?_replicate]
    simp [idxSIZE, hi]
  · rw [List.getElem?_eq_none (by simp [idxSIZE]; omega)]
    rfl

/-! ### `applyAppends` invariant -/

theorem applyAppends_eq (ops : List (Nat × LidarDetection)) :
    ∀ d : LidarData, (∀ p ∈ ops, p.1 < d.aux_points.length) →
    ∃ d1, applyAppends d ops = some d1 ∧
      d1.header = d.header ∧
      d1.max_channel_points = d.max_channel_points ∧
      d1.points = d.points ∧
      d1.aux_points.length = d.aux_points.length ∧
      ∀ i, d1.aux_points.getD i [] =
        d.aux_points.getD i [] ++
          (ops.filter (fun p => p.1 = i)).map Prod.snd := by
  induction ops with
  | nil =>
    intro d _
    exact ⟨d, rfl, rfl, rfl, rfl, rfl, by simp⟩
  | cons p rest ih =>
    intro d hv
    obtain ⟨c, det⟩ := p
    have hc : c < d.aux_points.length := hv (c, det) (by simp)
    have hsome : d.aux_points[c]? = some d.aux_points[c] :=
      List.getElem?_eq_getElem hc
    set d2 : LidarData :=
      { d with aux_points := d.aux_points.set c (d.aux_points[c] ++ [det]) }
      with hd2
    have hstep : d.WritePointAsync c det = some d2 := by
      rw [WritePointAsync, hsome]
    have hlen2 : d2.aux_points.length = d.aux_points.length := by
      simp [hd2]
    obtain ⟨d1, happ, hh, hm, hp, hl, hfilter⟩ :=
      ih d2 (by
        intro q hq
        rw [hlen2]
        exact hv q (by simp [hq]))
    refine ⟨d1, ?_, hh, hm, hp, by omega, ?_⟩
    · rw [applyAppends, hstep]
      exact happ
    · intro i
      rw [hfilter i]
      by_cases hci : c = i
      · subst hci
        have hd2get : d2.aux_points.getD c [] = d.aux_points[c] ++ [det] := by
          rw [List.getD_eq_getElem?_getD, hd2]
          simp [List.getElem?_set, hc]
        have hdget : d.aux_points.getD c [] = d.aux_points[c] := by
          rw [List.getD_eq_getElem?_getD, hsome]; rfl
        rw [hd2get, hdget]
        simp [List.filter_cons, List.append_assoc]
      · have hd2get : d2.aux_points.getD i [] = d.aux_points.getD i [] := by
          rw [List.getD_eq_getElem?_getD, List.getD_eq_getElem?_getD, hd2]
          simp [List.getElem?_set_ne hci]
        rw [hd2get]
        simp [List.filter_cons, hci]

end LidarData

/-! ### Counting appends per channel -/

theorem sum_map_add (l : List Nat) (f g : Nat → Nat) :
    (l.map (fun i => f i + g i)).sum = (l.map f).sum + (l.map g).sum := by
  induction l with
  | nil => rfl
  | cons a t ih => simp [ih]; omega

theorem sum_indicator_range (N c : Nat) (hc : c < N) :
    ((List.range N).map (fun i => if c = i then (1 : Nat) else 0)).sum = 1 := by
  induction N with
  | zero => omega
  | succ n ih =>
    rw [List.range_succ, List.map_append, List.sum_append]
    rcases Nat.lt_or_ge c n with h | h
    · rw [ih h]
      simp
      omega
    · have hcn : c = n := by omega
      subst hcn
      have hz : ((List.range c).map
          (fun i => if c = i then (1 : Nat) else 0)).sum = 0 := by
        apply List.sum_eq_zero
        intro x hx
        simp only [List.mem_map, List.mem_range] at hx
        obtain ⟨i, hi, hxi⟩ := hx
        simp [show c ≠ i by omega] at hxi
        omega
      simp [hz]

theorem countCh_cons (c : Nat) (det : LidarDetection)
    (rest : List (Nat × LidarDetection)) (i : Nat) :
    countCh ((c, det) :: rest) i =
      (if c = i then 1 else 0) + countCh rest i := by
  by_cases h : c = i
  · simp [countCh, List.filter_cons, h]
    omega
  · simp [countCh, List.filter_cons, h]

theorem countCh_sum (ops : List (Nat × LidarDetection)) (N : Nat)
    (hv : ∀ p ∈ ops, p.1 < N) :
    ((List.range N).map (countCh ops)).sum = ops.length := by
  induction ops with
  | nil =>
    have hz : countCh ([] : List (Nat × LidarDetection)) = fun _ => 0 := by
      funext i
      simp [countCh]
    rw [hz]
    simp
  | cons p rest ih =>
    obtain ⟨c, det⟩ := p
    have hmap : (List.range N).map (countCh ((c, det) :: rest)) =
        (List.range N).map
          (fun i => (if c = i then 1 else 0) + countCh rest i) := by
      apply List.map_congr_left
      intro i _
      exact countCh_cons c det rest i
    rw [hmap, sum_map_add, sum_indicator_range N c (hv (c, det) (by simp)),
      ih (by intro q hq; exact hv q (by simp [hq]))]
    simp
    omega

/-! ### Extracting one channel's segment from a concatenation -/

theorem flatMap_range_segment (i : Nat) :
    ∀ (f : Nat → List Nat) (m : Nat),
      ((((List.range (i + m + 1)).flatMap f).drop
        (((List.range i).map (fun j => (f j).length)).sum)).take
          (f i).length) = f i := by
  induction i with
  | zero =>
    intro f m
    rw [Nat.zero_add, List.range_succ_eq_map, List.flatMap_cons]
    simp [List.take_left]
  | succ i ih =>
    intro f m
    have hidx : i + 1 + m + 1 = (i + m + 1) + 1 := by omega
    rw [hidx, List.range_succ_eq_map (i + m + 1), List.flatMap_cons,
      List.flatMap_map, List.range_succ_eq_map i, List.map_cons,
      List.map_map, List.sum_cons]
    have hcomp : ((fun j => (f j).length) ∘ Nat.succ) =
        (fun j => (f (j + 1)).length) := by
      funext j
      rfl
    rw [hcomp, List.drop_append]
    exact ih (fun j => f (j + 1)) m

theorem channelsFlat_eq_range (aux : List (List LidarDetection)) :
    ∀ (fuel i : Nat),
      LidarData.channelsFlat aux i fuel =
        (List.range fuel).flatMap
          (fun k => (aux.getD (i + k) []).flatMap detFields) := by
  intro fuel
  induction fuel with
  | zero => intro i; rfl
  | succ k ih =>
    intro i
    rw [List.range_succ_eq_map, List.flatMap_cons, List.flatMap_map,
      LidarData.channelsFlat, ih (i + 1)]
    simp [Nat.succ_eq_add_one, Nat.add_assoc, Nat.add_comm, Nat.add_left_comm]

theorem length_flatMap_detFields (l : List LidarDetection) :
    (l.flatMap detFields).length = 4 * l.length := by
  induction l with
  | nil => rfl
  | cons a t ih => simp [detFields, ih]; omega

theorem sum_map_mul_left (l : List Nat) (c : Nat) (f : Nat → Nat) :
    (l.map (fun i => c * f i)).sum = c * (l.map f).sum := by
  induction l with
  | nil => simp
  | cons a t ih => simp [ih, Nat.mul_add]

namespace LidarData

/-! ### Header preservation through the operations -/

theorem saveLoop_some_getElem?_lt (aux : List (List LidarDetection))
    (fuel : Nat) :
    ∀ (i : Nat) (h p : List Nat) (r : List Nat × List Nat),
      saveLoop aux i fuel h p = some r →
      ∀ j, j < 2 + i → r.1[j]? = h[j]? := by
  induction fuel with
  | zero =>
    intro i h p r hr j _
    rw [saveLoop] at hr
    cases hr
    rfl
  | succ k ih =>
    intro i h p r hr j hj
    rw [saveLoop] at hr
    cases hs : aux[i]? with
    | none => rw [hs] at hr; exact absurd hr (by simp)
    | some buf =>
      rw [hs] at hr
      rw [ih (i + 1) _ _ r hr j (by omega)]
      exact List.getElem?_set_ne (by simp only [idxSIZE]; omega)

theorem SetHorizontalAngle_GetChannelCount (d : LidarData) (b : Nat) :
    (d.SetHorizontalAngle b).GetChannelCount = d.GetChannelCount := by
  simp only [SetHorizontalAngle, GetChannelCount, List.getD_eq_getElem?_getD]
  rw [List.getElem?_set_ne (by simp [idxHorizontalAngle, idxChannelCount])]

theorem WritePointAsync_some (d : LidarData) (c : Nat)
    (det : LidarDetection) (d1 : LidarData)
    (h : d.WritePointAsync c det = some d1) :
    d1.header = d.header ∧ d1.max_channel_points = d.max_channel_points ∧
      d1.points = d.points := by
  rw [WritePointAsync] at h
  cases hs : d.aux_points[c]? with
  | none => rw [hs] at h; exact absurd h (by simp)
  | some buf =>
    rw [hs] at h
    cases h
    exact ⟨rfl, rfl, rfl⟩

theorem SaveDetections_GetChannelCount (d d1 : LidarData)
    (h : d.SaveDetections = some d1) :
    d1.GetChannelCount = d.GetChannelCount := by
  rw [SaveDetections] at h
  cases hr : saveLoop d.aux_points 0 d.GetChannelCount d.header [] with
  | none => rw [hr] at h; exact absurd h (by simp)
  | some r =>
    obtain ⟨hh, pp⟩ := r
    rw [hr] at h
    cases h
    show (hh.getD idxChannelCount 0) = d.GetChannelCount
    rw [List.getD_eq_getElem?_getD,
      saveLoop_some_getElem?_lt _ _ _ _ _ _ hr idxChannelCount
        (by simp [idxChannelCount])]
    rw [GetChannelCount, List.getD_eq_getElem?_getD]

theorem applyOp_GetChannelCount (d : LidarData) (op : LidarOp)
    (d1 : LidarData) (h : applyOp d op = some d1) :
    d1.GetChannelCount = d.GetChannelCount := by
  cases op with
  | setAngle b =>
    cases h
    exact SetHorizontalAngle_GetChannelCount d b
  | reset hint =>
    cases h
    exact Reset_GetChannelCount d hint
  | append c det =>
    have := WritePointAsync_some d c det d1 h
    show d1.header.getD idxChannelCount 0 = d.header.getD idxChannelCount 0
    rw [this.1]
  | save => exact SaveDetections_GetChannelCount d d1 h

theorem applyOps_GetChannelCount (ops : List LidarOp) :
    ∀ (d d1 : LidarData), applyOps d ops = some d1 →
      d1.GetChannelCount = d.GetChannelCount := by
  induction ops with
  | nil =>
    intro d d1 h
    cases h
    rfl
  | cons op rest ih =>
    intro d d1 h
    rw [applyOps] at h
    cases hs : applyOp d op with
    | none => rw [hs] at h; exact absurd h (by simp)
    | some d2 =>
      rw [hs] at h
      rw [ih d2 d1 h, applyOp_GetChannelCount d op d2 hs]

end LidarData

/-! ## Claim theorems -/

/-- C1: the claim says `SaveDetections` writes each channel's staging size
into header word `2+i`.  The code instead writes `_aux_points.size()` (the
number of channels) into every count word: in the spec's own scenario
(N = 2, `Reset(10)`, appends to channels 0, 1, 0), the header counts come
out `[2, 2]`, not `[2, 1]`. -/
theorem saveDetections_header_counts_bug :
    ((applyAppends ((LidarData.init 2 0).Reset 10)
        [(0, ⟨1, 2, 3, 5⟩), (1, ⟨4, 5, 6, 9⟩), (0, ⟨7, 8, 9, 11⟩)]).bind
      LidarData.SaveDetections).map
        (fun d => [d.header.getD 2 0, d.header.getD 3 0]) = some [2, 2] ∧
      some [2, 2] ≠ some [2, 1] := by
  constructor
  · decide
  · decide

/-- C2: the claim says the flat buffer's length always equals 4 times the
sum of the per-channel header count words after consolidation.  Because
the code stores the channel count in every count word, the scenario of C1
yields a flat buffer of length 12 but header counts summing to 4, so
4 × sum = 16 ≠ 12. -/
theorem saveDetections_length_invariant_bug :
    ((applyAppends ((LidarData.init 2 0).Reset 10)
        [(0, ⟨1, 2, 3, 5⟩), (1, ⟨4, 5, 6, 9⟩), (0, ⟨7, 8, 9, 11⟩)]).bind
      LidarData.SaveDetections).map
        (fun d => (d.points.length, 4 * headerCountSum d)) =
      some (12, 16) ∧ (12 : Nat) ≠ 16 := by
  constructor
  · decide
  · decide

/-- C3: after a `Reset` and any sequence of valid appends, `SaveDetections`
succeeds and the flat buffer holds exactly the appended detections' four
fields (x, y, z, intensity), grouped by channel in ascending channel
order, within a channel in append order; its length is 4 × the number of
appends, and channel `i`'s records sit at float offset
`4 × (appends to channels 0..i-1)`. -/
theorem saveDetections_flat_buffer_correct (N hint junk : Nat)
    (ops : List (Nat × LidarDetection)) (hv : ∀ p ∈ ops, p.1 < N) :
    ∃ d1 d2,
      applyAppends ((LidarData.init N junk).Reset hint) ops = some d1 ∧
      d1.SaveDetections = some d2 ∧
      d2.points = (List.range N).flatMap
        (fun i => ((ops.filter (fun p => p.1 = i)).map Prod.snd).flatMap
          detFields) ∧
      d2.points.length = 4 * ops.length ∧
      (∀ i, i < N →
        (d2.points.drop (4 * countBelow ops i)).take (4 * countCh ops i) =
          ((ops.filter (fun p => p.1 = i)).map Prod.snd).flatMap
            detFields) := by
  have h0cc : ((LidarData.init N junk).Reset hint).GetChannelCount = N := by
    rw [LidarData.Reset_GetChannelCount, LidarData.init_GetChannelCount]
  have h0len : ((LidarData.init N junk).Reset hint).aux_points.length = N := by
    rw [LidarData.Reset_aux_length, LidarData.init_GetChannelCount]
  obtain ⟨d1, happ, hh, hm, hp, hl, hfil⟩ :=
    LidarData.applyAppends_eq ops ((LidarData.init N junk).Reset hint)
      (by intro p hp; rw [h0len]; exact hv p hp)
  have h1cc : d1.GetChannelCount = N := by
    show d1.header.getD LidarData.idxChannelCount 0 = N
    rw [hh]
    exact h0cc
  have h1len : d1.aux_points.length = N := by rw [hl, h0len]
  have hfil1 : ∀ i, d1.aux_points.getD i [] =
      (ops.filter (fun p => p.1 = i)).map Prod.snd := by
    intro i
    rw [hfil i, LidarData.Reset_aux_getD]
    rfl
  have hb : d1.GetChannelCount ≤ d1.aux_points.length := by omega
  have hflen : ∀ j,
      (((ops.filter (fun p => p.1 = j)).map Prod.snd).flatMap
        detFields).length = 4 * countCh ops j := by
    intro j
    rw [length_flatMap_detFields, List.length_map]
    rfl
  have hpts : LidarData.channelsFlat d1.aux_points 0 d1.GetChannelCount =
      (List.range N).flatMap
        (fun i => ((ops.filter (fun p => p.1 = i)).map Prod.snd).flatMap
          detFields) := by
    rw [h1cc, channelsFlat_eq_range]
    congr 1
    funext k
    rw [Nat.zero_add, hfil1 k]
  refine ⟨d1, _, happ, LidarData.SaveDetections_eq d1 hb, ?_, ?_, ?_⟩
  · exact hpts
  · show (LidarData.channelsFlat d1.aux_points 0 d1.GetChannelCount).length
      = 4 * ops.length
    rw [hpts, List.length_flatMap]
    have hfun : (List.length ∘ fun i =>
        ((ops.filter (fun p => p.1 = i)).map Prod.snd).flatMap detFields) =
        fun j => 4 * countCh ops j := by
      funext j
      exact hflen j
    rw [hfun, sum_map_mul_left, countCh_sum ops N hv]
  · intro i hi
    show ((LidarData.channelsFlat d1.aux_points 0
        d1.GetChannelCount).drop (4 * countBelow ops i)).take
          (4 * countCh ops i) = _
    rw [hpts]
    have hsum : ((List.range i).map (fun j =>
        (((ops.filter (fun p => p.1 = j)).map Prod.snd).flatMap
          detFields).length)).sum = 4 * countBelow ops i := by
      have hmapc : (List.range i).map (fun j =>
          (((ops.filter (fun p => p.1 = j)).map Prod.snd).flatMap
            detFields).length) =
          (List.range i).map (fun j => 4 * countCh ops j) := by
        apply List.map_congr_left
        intro j _
        exact hflen j
      rw [hmapc, sum_map_mul_left]
      rfl
    rw [← hsum, ← hflen i]
    have hN : N = i + (N - i - 1) + 1 := by omega
    rw [hN]
    exact flatMap_range_segment i
      (fun j => ((ops.filter (fun p => p.1 = j)).map Prod.snd).flatMap
        detFields) (N - i - 1)

/-- C3 witness: the spec's own scenario, N = 2 with three appends. -/
theorem saveDetections_flat_buffer_correct_witness :
    ∃ d1 d2,
      applyAppends ((LidarData.init 2 0).Reset 10)
        [(0, ⟨1, 2, 3, 5⟩), (1, ⟨4, 5, 6, 9⟩), (0, ⟨7, 8, 9, 11⟩)] =
          some d1 ∧
      d1.SaveDetections = some d2 ∧
      d2.points = (List.range 2).flatMap
        (fun i => (([((0 : Nat), (⟨1, 2, 3, 5⟩ : LidarDetection)),
            (1, ⟨4, 5, 6, 9⟩), (0, ⟨7, 8, 9, 11⟩)].filter
              (fun p => p.1 = i)).map Prod.snd).flatMap detFields) ∧
      d2.points.length = 4 * ([((0 : Nat), (⟨1, 2, 3, 5⟩ : LidarDetection)),
        (1, ⟨4, 5, 6, 9⟩), (0, ⟨7, 8, 9, 11⟩)] :
          List (Nat × LidarDetection)).length ∧
      (∀ i, i < 2 →
        (d2.points.drop (4 * countBelow [(0, ⟨1, 2, 3, 5⟩),
            (1, ⟨4, 5, 6, 9⟩), (0, ⟨7, 8, 9, 11⟩)] i)).take
          (4 * countCh [(0, ⟨1, 2, 3, 5⟩), (1, ⟨4, 5, 6, 9⟩),
            (0, ⟨7, 8, 9, 11⟩)] i) =
          (([((0 : Nat), (⟨1, 2, 3, 5⟩ : LidarDetection)),
            (1, ⟨4, 5, 6, 9⟩), (0, ⟨7, 8, 9, 11⟩)].filter
              (fun p => p.1 = i)).map Prod.snd).flatMap detFields) :=
  saveDetections_flat_buffer_correct 2 10 0
    [(0, ⟨1, 2, 3, 5⟩), (1, ⟨4, 5, 6, 9⟩), (0, ⟨7, 8, 9, 11⟩)] (by decide)

/-- C4: for every 32-bit pattern `f` (NaN and infinity patterns included),
`SetHorizontalAngle f` followed by `GetHorizontalAngle` returns exactly
`f`: the angle word is a raw bit copy, with no numeric conversion. -/
theorem setHorizontalAngle_roundtrip (d : LidarData) (f : Nat)
    (_hf : f < 2 ^ 32) (hd : 0 < d.header.length) :
    (d.SetHorizontalAngle f).GetHorizontalAngle = f := by
  simp only [LidarData.SetHorizontalAngle, LidarData.GetHorizontalAngle,
    LidarData.idxHorizontalAngle, List.getD_eq_getElem?_getD]
  rw [List.getElem?_set_self hd]
  rfl

/-- C4 witness: the quiet-NaN bit pattern 0x7FC00000 round-trips. -/
theorem setHorizontalAngle_roundtrip_witness :
    (2143289344 < 2 ^ 32 ∧ 0 < (LidarData.init 2 0).header.length) ∧
      ((LidarData.init 2 0).SetHorizontalAngle 2143289344).GetHorizontalAngle
        = 2143289344 :=
  ⟨⟨by decide, by decide⟩,
    setHorizontalAngle_roundtrip (LidarData.init 2 0) 2143289344
      (by decide) (by decide)⟩

/-- C5: immediately after `Reset hint`, on any accumulator, every
per-channel count word reads 0, the staging array has one empty buffer per
channel, and the hint affects neither the header nor the staging
contents. -/
theorem reset_clears_counts_and_buffers (d : LidarData) (hint : Nat) :
    (∀ i, i < d.GetChannelCount →
      (d.Reset hint).header.getD (2 + i) 0 = 0) ∧
    (∀ buf ∈ (d.Reset hint).aux_points, buf = []) ∧
    (d.Reset hint).aux_points.length = d.GetChannelCount ∧
    (∀ hint2, (d.Reset hint).header = (d.Reset hint2).header ∧
      (d.Reset hint).aux_points = (d.Reset hint2).aux_points) :=
  ⟨fun i hi => LidarData.Reset_counts_zero d hint i hi,
   LidarData.Reset_aux_mem d hint,
   LidarData.Reset_aux_length d hint,
   fun _ => ⟨rfl, rfl⟩⟩

/-- C5 witness: a two-channel accumulator reset with hint 7. -/
theorem reset_clears_counts_and_buffers_witness :
    ((LidarData.init 2 3).Reset 7).header.getD 3 0 = 0 ∧
      ((LidarData.init 2 3).Reset 7).aux_points.length =
        (LidarData.init 2 3).GetChannelCount :=
  ⟨(reset_clears_counts_and_buffers (LidarData.init 2 3) 7).1 1 (by decide),
   (reset_clears_counts_and_buffers (LidarData.init 2 3) 7).2.2.1⟩

/-- C6: a freshly constructed accumulator with channel count N has a
header of exactly 2 + N words: word 0 (angle) zero, word 1 equal to N,
every per-channel count word zero, and `GetChannelCount` returns N. -/
theorem init_header_layout (N junk : Nat) :
    (LidarData.init N junk).header.length = 2 + N ∧
    (LidarData.init N junk).header.getD 0 0 = 0 ∧
    (LidarData.init N junk).header.getD 1 0 = N ∧
    (∀ i, i < N → (LidarData.init N junk).header.getD (2 + i) 0 = 0) ∧
    (LidarData.init N junk).GetChannelCount = N :=
  ⟨LidarData.init_header_length N junk,
   LidarData.init_angle_zero N junk,
   LidarData.init_GetChannelCount N junk,
   fun i _ => LidarData.init_counts_zero N junk i,
   LidarData.init_GetChannelCount N junk⟩

/-- C6 witness: a fresh three-channel accumulator. -/
theorem init_header_layout_witness :
    (LidarData.init 3 9).header.getD 4 0 = 0 ∧
      (LidarData.init 3 9).GetChannelCount = 3 :=
  ⟨(init_header_layout 3 9).2.2.2.1 2 (by decide),
   (init_header_layout 3 9).2.2.2.2⟩

/-- C7: when a `SaveDetections` call succeeds, calling it again with no
intervening `Append` or `Reset` returns the same state bit for bit (in
particular the header and the flat buffer are identical). -/
theorem saveDetections_idempotent (d d1 : LidarData)
    (h : d.SaveDetections = some d1) :
    d1.SaveDetections = some d1 := by
  have hb := LidarData.SaveDetections_some_bound d d1 h
  rw [LidarData.SaveDetections_eq d hb] at h
  have hd1 : d1 = { d with
      header := LidarData.setCounts d.aux_points.length 0 d.GetChannelCount
        d.header
      points := LidarData.channelsFlat d.aux_points 0 d.GetChannelCount } :=
    (Option.some.inj h).symm
  have haux : d1.aux_points = d.aux_points := by rw [hd1]
  have hcc : d1.GetChannelCount = d.GetChannelCount := by
    rw [hd1]
    show (LidarData.setCounts d.aux_points.length 0 d.GetChannelCount
        d.header).getD LidarData.idxChannelCount 0 = d.GetChannelCount
    rw [List.getD_eq_getElem?_getD,
      LidarData.setCounts_getElem?_lt _ _ _ _ _
        (by simp [LidarData.idxChannelCount])]
    rw [LidarData.GetChannelCount, List.getD_eq_getElem?_getD]
  have hb1 : d1.GetChannelCount ≤ d1.aux_points.length := by
    rw [hcc, haux]
    exact hb
  rw [LidarData.SaveDetections_eq d1 hb1, hcc, haux]
  rw [hd1]
  simp only []
  rw [LidarData.setCounts_idem]

/-- C7 witness: a one-channel accumulator with one staged detection. -/
theorem saveDetections_idempotent_witness :
    LidarData.SaveDetections ⟨[0, 1, 1], [[⟨1, 2, 3, 4⟩]], 0, [1, 2, 3, 4]⟩ =
      some ⟨[0, 1, 1], [[⟨1, 2, 3, 4⟩]], 0, [1, 2, 3, 4]⟩ :=
  saveDetections_idempotent ⟨[0, 1, 0], [[⟨1, 2, 3, 4⟩]], 0, []⟩
    ⟨[0, 1, 1], [[⟨1, 2, 3, 4⟩]], 0, [1, 2, 3, 4]⟩ (by decide)

/-- C8: after any successful sequence of operations on an accumulator
constructed with channel count N, header word 1 still equals N and
`GetChannelCount` still returns N. -/
theorem channelCount_immutable (N junk : Nat) (ops : List LidarOp)
    (d1 : LidarData) (h : applyOps (LidarData.init N junk) ops = some d1) :
    d1.GetChannelCount = N ∧ d1.header.getD 1 0 = N := by
  have h1 := LidarData.applyOps_GetChannelCount ops _ d1 h
  rw [LidarData.init_GetChannelCount] at h1
  exact ⟨h1, h1⟩

/-- C8 witness: set an angle, reset, append and consolidate on a
two-channel accumulator. -/
theorem channelCount_immutable_witness :
    LidarData.GetChannelCount
        ⟨[5, 2, 2, 2], [[⟨1, 2, 3, 4⟩], []], 3, [1, 2, 3, 4]⟩ = 2 :=
  (channelCount_immutable 2 0
    [.setAngle 5, .reset 3, .append 0 ⟨1, 2, 3, 4⟩, .save]
    ⟨[5, 2, 2, 2], [[⟨1, 2, 3, 4⟩], []], 3, [1, 2, 3, 4]⟩ (by decide)).1

/-- C9: `WriteDetection` emits exactly four values in the order x, y, z,
intensity, separated by single spaces, with no trailing separator and no
other characters. -/
theorem writeDetection_format (d : LidarDetection) :
    d.WriteDetection =
      List.intersperse (OutTok.ch ' ')
        [OutTok.val d.x, OutTok.val d.y, OutTok.val d.z,
          OutTok.val d.intensity] :=
  rfl

/-- C10: construction does not create the staging buffers, so an append
before the first `Reset` indexes past the end of the staging array even
for a channel index below the channel count; after a `Reset` the staging
array has exactly N buffers and such an append is in bounds. -/
theorem append_before_reset_out_of_bounds (N junk : Nat) (_hN : 0 < N) :
    (LidarData.init N junk).aux_points.length = 0 ∧
    (∀ c det, c < N →
      (LidarData.init N junk).WritePointAsync c det = none) ∧
    (∀ hint, ((LidarData.init N junk).Reset hint).aux_points.length = N) ∧
    (∀ hint c det, c < N →
      ∃ d1, ((LidarData.init N junk).Reset hint).WritePointAsync c det
        = some d1) := by
  refine ⟨rfl, ?_, ?_, ?_⟩
  · intro c det _
    have hnone : (LidarData.init N junk).aux_points[c]? = none :=
      List.getElem?_eq_none (by simp [LidarData.init])
    rw [LidarData.WritePointAsync, hnone]
  · intro hint
    rw [LidarData.Reset_aux_length, LidarData.init_GetChannelCount]
  · intro hint c det hc
    have hlen : ((LidarData.init N junk).Reset hint).aux_points.length
        = N := by
      rw [LidarData.Reset_aux_length, LidarData.init_GetChannelCount]
    have hsome : ((LidarData.init N junk).Reset hint).aux_points[c]? =
        some (((LidarData.init N junk).Reset hint).aux_points
          |>.get ⟨c, by omega⟩) :=
      List.getElem?_eq_getElem (by omega)
    exact ⟨_, by rw [LidarData.WritePointAsync, hsome]⟩

/-- C10 witness: a one-channel accumulator; the same valid channel index
fails before the first reset and succeeds after it. -/
theorem append_before_reset_out_of_bounds_witness :
    (LidarData.init 1 0).WritePointAsync 0 ⟨1, 1, 1, 1⟩ = none ∧
      ∃ d1, ((LidarData.init 1 0).Reset 5).WritePointAsync 0 ⟨1, 1, 1, 1⟩
        = some d1 :=
  ⟨(append_before_reset_out_of_bounds 1 0 (by decide)).2.1 0 ⟨1, 1, 1, 1⟩
      (by decide),
   (append_before_reset_out_of_bounds 1 0 (by decide)).2.2.2 5 0 ⟨1, 1, 1, 1⟩
      (by decide)⟩

end Carla
